import Mathlib

/-!
# Event-Registration: shallow embedding and verification

Shallow embedding of the registration/payment/check-in logic of
`src/components/EventRegistrationApp.tsx` (the `.web.tsx` variant shares the
same handler logic verbatim, adding only the orthogonal `church`/`zone` form
fields, so one embedding covers both).

Modelling conventions:
* Money amounts (JavaScript `number`) are modelled as `Int`: the spec treats
  them as exact money amounts and every constant in the source is an integer.
* `parseFloat` of the partial-payment input is modelled as `Option Int`
  (`none` = `NaN`, i.e. a non-numeric string).
* JSON string escaping inside `JSON.stringify` and the browser's
  `encodeURIComponent` are deterministic character-level encodings of their
  input; they are elided (identity) since no claim depends on the exact bytes.
* UI-level guards (which buttons are rendered / enabled for a record) are part
  of the operations they guard, since they are the only call sites of the
  handlers: the Approve button exists only for `status = pending ∧
  paymentMethod = transfer` rows, the Send-e-ticket button only for
  `balance = 0 ∧ ¬emailSent` rows, the Add-Payment button only for
  `balance > 0` rows, and the Submit button of the payment step only with a
  non-null payment method.
-/

namespace EventReg

inductive TicketType where
  | solo
  | guest
deriving DecidableEq

inductive PaymentMethod where
  | cash
  | transfer
deriving DecidableEq

inductive Status where
  | paid
  | pending
deriving DecidableEq

/-- The `Registration` interface of the source (money as `Int`, optional
fields as `Option`, the three trailing optional booleans/artifacts defaulted
as in a freshly constructed record where they are absent/undefined). -/
structure Registration where
  id : String
  name : String
  phone : String
  email : String
  ticketType : TicketType
  guestName : Option String
  totalDue : Int
  totalPaid : Int
  balance : Int
  paymentMethod : PaymentMethod
  status : Status
  transactionRef : Option String
  receiptImage : Option String
  createdAt : String
  ticketQR : Option String := none
  emailSent : Bool := false
  checkedIn : Bool := false
deriving DecidableEq

/-- Embeds the ternary `ticketPrice` constant: 2000 for solo, 3000 for guest. -/
def ticketPrice : TicketType → Int
  | .solo => 2000
  | .guest => 3000

/-- The registration form state (`formData` plus the payment-step inputs are
passed separately to the handlers that read them). -/
structure FormData where
  name : String
  phone : String
  email : String
  ticketType : TicketType
  guestName : String
deriving DecidableEq

/-- Error taxonomy of the spec; each constructor carries the source's
user-facing message. `Invalid Staff PIN` is the authorization failure, the
rest are validation failures. -/
inductive RegError where
  | validation (msg : String)
  | authorization (msg : String)
deriving DecidableEq

/-- Model of JavaScript `String.prototype.trim()`: strip leading and
trailing whitespace (structural recursion, so it evaluates by kernel
reduction, unlike `String.trim`). -/
def jsTrim (s : String) : String :=
  String.mk
    (((s.data.dropWhile Char.isWhitespace).reverse.dropWhile
      Char.isWhitespace).reverse)

/-- Embeds `handleSubmit` of `RegistrationPage`: required-field validation gating
the payment step (JS falsiness of a string = emptiness). -/
def handleSubmit (form : FormData) : Except RegError Unit :=
  if form.name = "" ∨ form.phone = "" ∨ form.email = "" then
    .error (.validation "Please fill all required fields")
  else if form.ticketType = .guest ∧ form.guestName = "" then
    .error (.validation "Please enter guest name")
  else
    .ok ()

/-- Embeds `handlePayment` of `RegistrationPage`: validates the payment inputs and
constructs the new `Registration` record. `id` is the generated
`Date.now().toString()` value and `createdAt` the ISO timestamp, both passed
in explicitly. -/
def handlePayment (form : FormData) (pm : PaymentMethod)
    (staffPin transactionRef : String) (receiptImage : Option String)
    (id createdAt : String) : Except RegError Registration :=
  match pm with
  | .cash =>
    if staffPin ≠ "1234" then
      .error (.authorization "Invalid Staff PIN")
    else
      .ok
        { id := id
          name := form.name
          phone := form.phone
          email := form.email
          ticketType := form.ticketType
          guestName := if form.ticketType = .guest then some form.guestName else none
          totalDue := ticketPrice form.ticketType
          totalPaid := ticketPrice form.ticketType
          balance := 0
          paymentMethod := .cash
          status := .paid
          transactionRef := none
          receiptImage := none
          createdAt := createdAt }
  | .transfer =>
    if jsTrim transactionRef = "" then
      .error (.validation "Please enter transaction reference")
    else
      match receiptImage with
      | none => .error (.validation "Please upload payment receipt")
      | some img =>
        .ok
          { id := id
            name := form.name
            phone := form.phone
            email := form.email
            ticketType := form.ticketType
            guestName := if form.ticketType = .guest then some form.guestName else none
            totalDue := ticketPrice form.ticketType
            totalPaid := 0
            balance := ticketPrice form.ticketType
            paymentMethod := .transfer
            status := .pending
            transactionRef := some transactionRef
            receiptImage := some img
            createdAt := createdAt }

/-- Embeds the store update `updateRegistration(id, updates)`: map over the list, patching exactly the
entries whose `id` matches; `updates` is the object-spread patch applied to a
matching record. -/
def updateRegistration (regs : List Registration) (id : String)
    (updates : Registration → Registration) : List Registration :=
  regs.map fun reg => if reg.id = id then updates reg else reg

def jsonString (s : String) : String := "\"" ++ s ++ "\""

def ticketTypeString : TicketType → String
  | .solo => "solo"
  | .guest => "guest"

/-- The `JSON.stringify` payload of `generateQRCode`: exactly the four fields
`id`, `name`, `ticketType`, `guestName` (the key is omitted when `guestName`
is `undefined`, as `JSON.stringify` does). -/
def qrData (reg : Registration) : String :=
  "\x7b\"id\":" ++ jsonString reg.id ++
    ",\"name\":" ++ jsonString reg.name ++
    ",\"ticketType\":" ++ jsonString (ticketTypeString reg.ticketType) ++
    (match reg.guestName with
      | none => ""
      | some g => ",\"guestName\":" ++ jsonString g) ++ "\x7d"

/-- Embeds `generateQRCode`: the QR-service URL embedding the payload. -/
def generateQRCode (reg : Registration) : String :=
  "https://api.qrserver.com/v1/create-qr-code/?size=300x300&data=" ++ qrData reg

/-- The patch object `{ticketQR: qrCode, emailSent: true}` that `sendETicket`
passes to `updateRegistration`; `reg` is the record the handler was called
with (its immutable identity fields feed the QR code). -/
def sendPatch (reg : Registration) : Registration → Registration :=
  fun r => { r with ticketQR := some (generateQRCode reg), emailSent := true }

/-- Embeds `sendETicket(registration)`: generate the QR code and store it, marking
`emailSent`. -/
def sendETicket (regs : List Registration) (reg : Registration) :
    List Registration :=
  updateRegistration regs reg.id (sendPatch reg)

/-- The patch object of `handleApprove`: status paid, totalPaid set to the
full `reg.totalDue`, balance zero. -/
def approvePatch (reg : Registration) : Registration → Registration :=
  fun r => { r with status := Status.paid, totalPaid := reg.totalDue, balance := 0 }

/-- Embeds the `handleApprove(reg)` body: the update it performs on the list (the
follow-up deferred `handleSendETicket` call is part of `approveOp`). -/
def handleApprove (regs : List Registration) (reg : Registration) :
    List Registration :=
  updateRegistration regs reg.id (approvePatch reg)

/-- The patch object of `handleAddPartialPayment`, with `newTotalPaid` and
`newBalance` computed from the clicked record `reg`. -/
def partialPatch (reg : Registration) (amount : Int) :
    Registration → Registration :=
  fun r =>
    { r with
      totalPaid := reg.totalPaid + amount
      balance := reg.totalDue - (reg.totalPaid + amount)
      status :=
        if reg.totalDue - (reg.totalPaid + amount) ≤ 0 then Status.paid
        else reg.status }

/-- Embeds `handleAddPartialPayment(reg)`: `parseFloat` of the entered amount is
`partialAmount` (`none` = `NaN`); non-numeric or non-positive amounts return
without mutating. -/
def handleAddPartialPayment (regs : List Registration) (reg : Registration)
    (partialAmount : Option Int) : List Registration :=
  match partialAmount with
  | none => regs
  | some amount =>
    if amount ≤ 0 then regs
    else updateRegistration regs reg.id (partialPatch reg amount)

/-- Outcome of the manual ticket lookup `handleManualSearch`. -/
inductive SearchResult where
  | notFound
  | paymentIncomplete (balance : Int)
  | found (reg : Registration)
deriving DecidableEq

/-- Embeds `handleManualSearch`: linear lookup by trimmed id; errors on an unknown
id and on an outstanding balance (carrying it), otherwise yields the record
as the scan result. -/
def handleManualSearch (regs : List Registration) (manualId : String) :
    SearchResult :=
  match regs.find? (fun r => r.id = jsTrim manualId) with
  | none => .notFound
  | some reg =>
    if reg.balance > 0 then .paymentIncomplete reg.balance else .found reg

/-- Outcome of a full check-in attempt: the two error renders, the
"already checked in" success render, and a first-time check-in. -/
inductive CheckInOutcome where
  | notFound
  | paymentIncomplete (balance : Int)
  | alreadyCheckedIn
  | checkedInNow
deriving DecidableEq

/-- The patch object `{checkedIn: true}` of `handleCheckIn`. -/
def checkInPatch : Registration → Registration :=
  fun r => { r with checkedIn := true }

/-- The check-in operation of `QRScannerPage`: `handleManualSearch` followed
by the scan-result render, which shows the "already checked in" view for a
`checkedIn` record and otherwise offers the check-in button firing
`handleCheckIn` (`updateRegistration(id, {checkedIn: true})`). Returns the
outcome together with the resulting list. -/
def checkInOp (regs : List Registration) (manualId : String) :
    CheckInOutcome × List Registration :=
  match handleManualSearch regs manualId with
  | .notFound => (.notFound, regs)
  | .paymentIncomplete b => (.paymentIncomplete b, regs)
  | .found reg =>
    if reg.checkedIn then (.alreadyCheckedIn, regs)
    else (.checkedInNow, updateRegistration regs reg.id checkInPatch)

/-- The full registration flow: `handleSubmit` gates the payment step, then
`handlePayment` builds the record and `addRegistration` appends it; on any
failure the list is unchanged (no record is created). -/
def registerOp (regs : List Registration) (form : FormData)
    (pm : PaymentMethod) (staffPin transactionRef : String)
    (receiptImage : Option String) (id createdAt : String) :
    List Registration :=
  match handleSubmit form with
  | .error _ => regs
  | .ok _ =>
    match handlePayment form pm staffPin transactionRef receiptImage id createdAt with
    | .error _ => regs
    | .ok reg => regs ++ [reg]

/-- The approve operation on the dashboard row for `id`: the Approve button
exists only when the row's record is `pending ∧ transfer`; clicking runs
`handleApprove(reg)` and then the deferred `handleSendETicket(reg)` (which
calls `sendETicket` on the same, now stale, `reg`). -/
def approveOp (regs : List Registration) (id : String) : List Registration :=
  match regs.find? (fun r => r.id = id) with
  | none => regs
  | some reg =>
    if reg.status = Status.pending ∧ reg.paymentMethod = PaymentMethod.transfer then
      sendETicket (handleApprove regs reg) reg
    else regs

/-- The add-payment operation on the dashboard row for `id`: the Add Payment
button exists only when `balance > 0`; clicking runs
`handleAddPartialPayment(reg)` with the parsed amount. -/
def addPartialPaymentOp (regs : List Registration) (id : String)
    (partialAmount : Option Int) : List Registration :=
  match regs.find? (fun r => r.id = id) with
  | none => regs
  | some reg =>
    if reg.balance > 0 then handleAddPartialPayment regs reg partialAmount
    else regs

/-- The e-ticket issuance operation on the dashboard row for `id`: the Send
button exists only when `balance = 0` and `emailSent` is not yet set;
clicking runs `handleSendETicket(reg)`, i.e. `sendETicket`. -/
def issueETicketOp (regs : List Registration) (id : String) :
    List Registration :=
  match regs.find? (fun r => r.id = id) with
  | none => regs
  | some reg =>
    if reg.balance = 0 ∧ reg.emailSent = false then sendETicket regs reg
    else regs

/-- The mutating operations of the app, acting on the stored list. -/
inductive Op where
  | register (form : FormData) (pm : PaymentMethod)
      (staffPin transactionRef : String) (receiptImage : Option String)
      (id createdAt : String)
  | approve (id : String)
  | addPartialPayment (id : String) (partialAmount : Option Int)
  | issueETicket (id : String)
  | checkIn (manualId : String)

/-- One mutating step of the app. -/
def step (regs : List Registration) : Op → List Registration
  | .register form pm staffPin transactionRef receiptImage id createdAt =>
    registerOp regs form pm staffPin transactionRef receiptImage id createdAt
  | .approve id => approveOp regs id
  | .addPartialPayment id partialAmount => addPartialPaymentOp regs id partialAmount
  | .issueETicket id => issueETicketOp regs id
  | .checkIn manualId => (checkInOp regs manualId).2

/-- Environment assumption on an operation: the generated id of a new record
(`Date.now().toString()`) is fresh, per the spec's generation-time uniqueness
of ids. All other operations are unconstrained. -/
def OkOp (regs : List Registration) : Op → Prop
  | .register _ _ _ _ _ id _ => ∀ r ∈ regs, r.id ≠ id
  | _ => True

/-- States reachable from the empty store through the app's operations. -/
inductive Reachable : List Registration → Prop
  | init : Reachable []
  | next {regs : List Registration} {op : Op} : Reachable regs →
      OkOp regs op → Reachable (step regs op)

/-! ## Generic lemmas about `updateRegistration` and the patches -/

theorem updateRegistration_length (regs : List Registration) (id : String)
    (f : Registration → Registration) :
    (updateRegistration regs id f).length = regs.length :=
  List.length_map regs _

theorem updateRegistration_get (regs : List Registration) (id : String)
    (f : Registration → Registration) (i : Nat) (h : i < regs.length)
    (h' : i < (updateRegistration regs id f).length) :
    (updateRegistration regs id f).get ⟨i, h'⟩ =
      if (regs.get ⟨i, h⟩).id = id then f (regs.get ⟨i, h⟩)
      else regs.get ⟨i, h⟩ := by
  simp [updateRegistration, List.getElem_map]

theorem mem_updateRegistration {r' : Registration} {regs : List Registration}
    {id : String} {f : Registration → Registration} :
    r' ∈ updateRegistration regs id f ↔
      ∃ r ∈ regs, (if r.id = id then f r else r) = r' := by
  simp [updateRegistration, List.mem_map]

theorem mem_updateRegistration_of_mem {r : Registration}
    {regs : List Registration} {id : String} {f : Registration → Registration}
    (hr : r ∈ regs) (hid : r.id = id) : f r ∈ updateRegistration regs id f :=
  mem_updateRegistration.mpr ⟨r, hr, by simp [hid]⟩

theorem updateRegistration_map_id (regs : List Registration) (id : String)
    (f : Registration → Registration) (hf : ∀ r, (f r).id = r.id) :
    (updateRegistration regs id f).map Registration.id =
      regs.map Registration.id := by
  simp only [updateRegistration, List.map_map]
  refine List.map_congr_left fun r _ => ?_
  by_cases h : r.id = id <;> simp [Function.comp, h, hf]

theorem find?_updateRegistration (regs : List Registration) (id s : String)
    (f : Registration → Registration) (hf : ∀ r, (f r).id = r.id) :
    (updateRegistration regs id f).find? (fun r => r.id = s) =
      (regs.find? (fun r => r.id = s)).map
        fun r => if r.id = id then f r else r := by
  induction regs with
  | nil => rfl
  | cons a l ih =>
    simp only [updateRegistration, List.map_cons] at ih ⊢
    have hhead : (if a.id = id then f a else a).id = a.id := by
      by_cases hid : a.id = id
      · rw [if_pos hid, hf a]
      · rw [if_neg hid]
    by_cases hs : a.id = s
    · rw [List.find?_cons_of_pos _ (by simp only [hhead, decide_eq_true_eq]; exact hs),
        List.find?_cons_of_pos _ (by simp only [decide_eq_true_eq]; exact hs)]
      rfl
    · rw [List.find?_cons_of_neg _ (by simp only [hhead, decide_eq_true_eq]; exact hs),
        List.find?_cons_of_neg _ (by simp only [decide_eq_true_eq]; exact hs)]
      exact ih

theorem id_injOn {regs : List Registration}
    (h : (regs.map Registration.id).Nodup) {a b : Registration}
    (ha : a ∈ regs) (hb : b ∈ regs) (hab : a.id = b.id) : a = b :=
  List.inj_on_of_nodup_map h ha hb hab

theorem sendPatch_id (reg r : Registration) : (sendPatch reg r).id = r.id := rfl

theorem approvePatch_id (reg r : Registration) :
    (approvePatch reg r).id = r.id := rfl

theorem partialPatch_id (reg : Registration) (amount : Int) (r : Registration) :
    (partialPatch reg amount r).id = r.id := rfl

theorem checkInPatch_id (r : Registration) : (checkInPatch r).id = r.id := rfl

/-! ## The record-level invariants and their preservation -/

/-- The two spec invariants of a single record: the ledger equation and the
derived status. -/
def GoodReg (r : Registration) : Prop :=
  r.totalPaid + r.balance = r.totalDue ∧ (r.status = Status.paid ↔ r.balance ≤ 0)

/-- Store-level invariant: ids are unique and every record satisfies
`GoodReg`. -/
def Inv (regs : List Registration) : Prop :=
  (regs.map Registration.id).Nodup ∧ ∀ r ∈ regs, GoodReg r

theorem ticketPrice_pos (t : TicketType) : 0 < ticketPrice t := by
  cases t <;> decide

theorem all_updateRegistration {P : Registration → Prop}
    {regs : List Registration} {id : String} {f : Registration → Registration}
    (hunch : ∀ r ∈ regs, ¬ r.id = id → P r)
    (hpatch : ∀ r ∈ regs, r.id = id → P (f r)) :
    ∀ r' ∈ updateRegistration regs id f, P r' := by
  intro r' hr'
  obtain ⟨r, hr, hre⟩ := mem_updateRegistration.mp hr'
  by_cases h : r.id = id
  · rw [if_pos h] at hre
    exact hre ▸ hpatch r hr h
  · rw [if_neg h] at hre
    exact hre ▸ hunch r hr h

theorem goodReg_sendPatch {reg r : Registration} :
    GoodReg (sendPatch reg r) ↔ GoodReg r := Iff.rfl

theorem goodReg_checkInPatch {r : Registration} :
    GoodReg (checkInPatch r) ↔ GoodReg r := Iff.rfl

/-- A record freshly built by `handlePayment` carries the supplied id and
satisfies both record invariants. -/
theorem handlePayment_ok {form : FormData} {pm : PaymentMethod}
    {staffPin transactionRef : String} {receiptImage : Option String}
    {id createdAt : String} {reg : Registration}
    (h : handlePayment form pm staffPin transactionRef receiptImage id createdAt
      = Except.ok reg) : reg.id = id ∧ GoodReg reg := by
  cases pm with
  | cash =>
    simp only [handlePayment] at h
    split at h
    · cases h
    · simp only [Except.ok.injEq] at h
      subst h
      exact ⟨rfl, by simp [GoodReg]⟩
  | transfer =>
    simp only [handlePayment] at h
    split at h
    · cases h
    · cases receiptImage with
      | none => cases h
      | some img =>
        simp only [Except.ok.injEq] at h
        subst h
        refine ⟨rfl, by simp, ?_⟩
        simp only [show ¬ (ticketPrice form.ticketType ≤ 0) from
          not_le.mpr (ticketPrice_pos _), iff_false]
        intro hc
        cases hc

theorem inv_registerOp {regs : List Registration} (hinv : Inv regs)
    {form : FormData} {pm : PaymentMethod}
    {staffPin transactionRef : String} {receiptImage : Option String}
    {id createdAt : String} (hfresh : ∀ r ∈ regs, r.id ≠ id) :
    Inv (registerOp regs form pm staffPin transactionRef receiptImage id createdAt) := by
  unfold registerOp
  cases hsub : handleSubmit form with
  | error e => exact hinv
  | ok u =>
    cases hpay : handlePayment form pm staffPin transactionRef receiptImage id createdAt with
    | error e => exact hinv
    | ok reg =>
      obtain ⟨hid, hgood⟩ := handlePayment_ok hpay
      obtain ⟨hnd, hall⟩ := hinv
      refine ⟨?_, ?_⟩
      · rw [List.map_append]
        rw [List.nodup_append]
        refine ⟨hnd, List.nodup_singleton _, ?_⟩
        intro x hx hy
        simp only [List.map_cons, List.map_nil, List.mem_singleton] at hy
        obtain ⟨r, hr, hrx⟩ := List.mem_map.mp hx
        exact hfresh r hr (by rw [hrx, hy, hid])
      · intro r' hr'
        rcases List.mem_append.mp hr' with h | h
        · exact hall r' h
        · rw [List.mem_singleton] at h
          exact h ▸ hgood

theorem inv_approveOp {regs : List Registration} (hinv : Inv regs)
    (id : String) : Inv (approveOp regs id) := by
  unfold approveOp
  cases hfind : regs.find? (fun r => r.id = id) with
  | none => exact hinv
  | some reg =>
    show Inv (if reg.status = Status.pending ∧
        reg.paymentMethod = PaymentMethod.transfer then
      sendETicket (handleApprove regs reg) reg else regs)
    by_cases hguard : reg.status = Status.pending ∧
        reg.paymentMethod = PaymentMethod.transfer
    · rw [if_pos hguard]
      obtain ⟨hnd, hall⟩ := hinv
      have hmem := List.mem_of_find?_eq_some hfind
      have hmid : ∀ r' ∈ handleApprove regs reg, GoodReg r' := by
        unfold handleApprove
        refine all_updateRegistration (fun r hr _ => hall r hr) ?_
        intro r hr hrid
        have : r = reg := id_injOn hnd hr hmem hrid
        subst this
        simp [GoodReg, approvePatch]
      constructor
      · unfold sendETicket handleApprove
        rw [updateRegistration_map_id _ _ _ (sendPatch_id reg),
          updateRegistration_map_id _ _ _ (approvePatch_id reg)]
        exact hnd
      · unfold sendETicket
        refine all_updateRegistration (fun r hr _ => hmid r hr) ?_
        intro r hr _
        exact goodReg_sendPatch.mpr (hmid r hr)
    · rw [if_neg hguard]
      exact hinv

theorem inv_addPartialPaymentOp {regs : List Registration} (hinv : Inv regs)
    (id : String) (partialAmount : Option Int) :
    Inv (addPartialPaymentOp regs id partialAmount) := by
  unfold addPartialPaymentOp
  cases hfind : regs.find? (fun r => r.id = id) with
  | none => exact hinv
  | some reg =>
    show Inv (if reg.balance > 0 then
      handleAddPartialPayment regs reg partialAmount else regs)
    by_cases hb : reg.balance > 0
    · rw [if_pos hb]
      cases partialAmount with
      | none => exact hinv
      | some a =>
        simp only [handleAddPartialPayment]
        by_cases ha : a ≤ 0
        · rw [if_pos ha]
          exact hinv
        · rw [if_neg ha]
          obtain ⟨hnd, hall⟩ := hinv
          have hmem := List.mem_of_find?_eq_some hfind
          constructor
          · rw [updateRegistration_map_id _ _ _ (partialPatch_id reg a)]
            exact hnd
          · refine all_updateRegistration (fun r hr _ => hall r hr) ?_
            intro r hr hrid
            have hreq : r = reg := id_injOn hnd hr hmem hrid
            rw [hreq]
            obtain ⟨h1, h2⟩ := hall reg hmem
            constructor
            · simp only [partialPatch]
              omega
            · simp only [partialPatch]
              by_cases hnb : reg.totalDue - (reg.totalPaid + a) ≤ 0
              · simp [hnb]
              · simp only [if_neg hnb]
                rw [h2]
                omega
    · rw [if_neg hb]
      exact hinv

theorem inv_issueETicketOp {regs : List Registration} (hinv : Inv regs)
    (id : String) : Inv (issueETicketOp regs id) := by
  unfold issueETicketOp
  cases hfind : regs.find? (fun r => r.id = id) with
  | none => exact hinv
  | some reg =>
    show Inv (if reg.balance = 0 ∧ reg.emailSent = false then
      sendETicket regs reg else regs)
    by_cases hguard : reg.balance = 0 ∧ reg.emailSent = false
    · rw [if_pos hguard]
      obtain ⟨hnd, hall⟩ := hinv
      constructor
      · unfold sendETicket
        rw [updateRegistration_map_id _ _ _ (sendPatch_id reg)]
        exact hnd
      · unfold sendETicket
        refine all_updateRegistration (fun r hr _ => hall r hr) ?_
        intro r hr _
        exact goodReg_sendPatch.mpr (hall r hr)
    · rw [if_neg hguard]
      exact hinv

theorem inv_checkInOp {regs : List Registration} (hinv : Inv regs)
    (manualId : String) : Inv (checkInOp regs manualId).2 := by
  unfold checkInOp
  cases hms : handleManualSearch regs manualId with
  | notFound => exact hinv
  | paymentIncomplete b => exact hinv
  | found reg =>
    by_cases hc : reg.checkedIn
    · simp only [hc, if_true]
      exact hinv
    · simp only [hc, if_false, Bool.false_eq_true]
      obtain ⟨hnd, hall⟩ := hinv
      constructor
      · rw [updateRegistration_map_id _ _ _ checkInPatch_id]
        exact hnd
      · refine all_updateRegistration (fun r hr _ => hall r hr) ?_
        intro r hr _
        exact goodReg_checkInPatch.mpr (hall r hr)

theorem inv_step {regs : List Registration} {op : Op} (hinv : Inv regs)
    (hok : OkOp regs op) : Inv (step regs op) := by
  cases op with
  | register form pm staffPin transactionRef receiptImage id createdAt =>
    exact inv_registerOp hinv hok
  | approve id => exact inv_approveOp hinv id
  | addPartialPayment id partialAmount =>
    exact inv_addPartialPaymentOp hinv id partialAmount
  | issueETicket id => exact inv_issueETicketOp hinv id
  | checkIn manualId => exact inv_checkInOp hinv manualId

theorem inv_reachable {regs : List Registration} (h : Reachable regs) :
    Inv regs := by
  induction h with
  | init => exact ⟨List.nodup_nil, fun r hr => absurd hr (List.not_mem_nil r)⟩
  | next _ hok ih => exact inv_step ih hok

/-! ## Concrete sample data for the witnesses -/

/-- A filled-in solo form. -/
def wForm : FormData :=
  { name := "Ada", phone := "0801", email := "ada@example.com",
    ticketType := TicketType.solo, guestName := "" }

/-- A solo/cash registration with the correct staff PIN. -/
def wOp : Op :=
  Op.register wForm PaymentMethod.cash "1234" "" none "1700000000000"
    "2026-01-01T00:00:00.000Z"

def wState : List Registration := step [] wOp

/-- The record `wOp` creates. -/
def wReg : Registration :=
  { id := "1700000000000", name := "Ada", phone := "0801",
    email := "ada@example.com", ticketType := TicketType.solo,
    guestName := none, totalDue := 2000, totalPaid := 2000, balance := 0,
    paymentMethod := PaymentMethod.cash, status := Status.paid,
    transactionRef := none, receiptImage := none,
    createdAt := "2026-01-01T00:00:00.000Z" }

theorem wReachable : Reachable wState := by
  refine Reachable.next Reachable.init ?_
  intro r hr
  cases hr

theorem wState_eq : wState = [wReg] := by decide

theorem wReg_mem : wReg ∈ wState := by decide

/-- A pending guest/transfer registration with an outstanding balance. -/
def wPending : Registration :=
  { id := "42", name := "Bisi", phone := "0802", email := "bisi@example.com",
    ticketType := TicketType.guest, guestName := some "Kemi",
    totalDue := 3000, totalPaid := 0, balance := 3000,
    paymentMethod := PaymentMethod.transfer, status := Status.pending,
    transactionRef := some "TRF1", receiptImage := some "data:image/png;base64,AAA",
    createdAt := "2026-01-01T00:00:00.000Z" }

/-- A half-paid pending record with balance 500. -/
def wHalfPaid : Registration :=
  { wPending with id := "43", totalPaid := 2500, balance := 500 }

/-- A fully paid record that is already checked in. -/
def wChecked : Registration :=
  { wReg with id := "44", checkedIn := true }

/-! ## Claim theorems -/

/-- C1: for every Registration record in a state reachable through the
mutating operations (creation via cash or transfer, approve,
addPartialPayment, issueETicket, checkIn), `totalPaid + balance = totalDue`
holds. -/
theorem ledger_equation_invariant {regs : List Registration}
    (h : Reachable regs) : ∀ r ∈ regs, r.totalPaid + r.balance = r.totalDue :=
  fun r hr => ((inv_reachable h).2 r hr).1

theorem ledger_equation_invariant_witness :
    wReg.totalPaid + wReg.balance = wReg.totalDue :=
  ledger_equation_invariant wReachable wReg wReg_mem

/-- C2: for every Registration record reachable through the operations,
`status = paid` iff `balance ≤ 0`, and otherwise (`balance > 0`) the status
is `pending`. -/
theorem status_paid_iff_balance_nonpos {regs : List Registration}
    (h : Reachable regs) : ∀ r ∈ regs,
      (r.status = Status.paid ↔ r.balance ≤ 0) ∧
      (r.status = Status.pending ↔ 0 < r.balance) := by
  intro r hr
  have h2 := ((inv_reachable h).2 r hr).2
  refine ⟨h2, ?_, ?_⟩
  · intro hp
    by_contra hball
    push_neg at hball
    have hpaid := h2.mpr (by omega)
    rw [hp] at hpaid
    cases hpaid
  · intro hb
    cases hst : r.status with
    | paid => exact absurd (h2.mp hst) (by omega)
    | pending => rfl

theorem status_paid_iff_balance_nonpos_witness :
    (wReg.status = Status.paid ↔ wReg.balance ≤ 0) ∧
    (wReg.status = Status.pending ↔ 0 < wReg.balance) :=
  status_paid_iff_balance_nonpos wReachable wReg wReg_mem

/-- C9: `updateById` frame property — the update preserves length and order,
rewrites exactly the position(s) whose record matches the id (leaving every
record with a different id unchanged), and is a no-op raising no error when
no record has the id. -/
theorem updateById_frame (regs : List Registration) (id : String)
    (f : Registration → Registration) :
    (updateRegistration regs id f).length = regs.length ∧
    (∀ i : Nat, ∀ h : i < regs.length,
      ∀ h' : i < (updateRegistration regs id f).length,
      (updateRegistration regs id f).get ⟨i, h'⟩ =
        if (regs.get ⟨i, h⟩).id = id then f (regs.get ⟨i, h⟩)
        else regs.get ⟨i, h⟩) ∧
    ((∀ r ∈ regs, r.id ≠ id) → updateRegistration regs id f = regs) := by
  refine ⟨updateRegistration_length regs id f,
    fun i h h' => updateRegistration_get regs id f i h h', fun habs => ?_⟩
  unfold updateRegistration
  have hcong : regs.map (fun reg => if reg.id = id then f reg else reg) =
      regs.map (fun r => r) :=
    List.map_congr_left fun r hr => if_neg (habs r hr)
  rw [hcong, List.map_id']

theorem updateById_frame_witness :
    (updateRegistration wState "nope" checkInPatch).length = wState.length ∧
    (updateRegistration wState wReg.id checkInPatch).get ⟨0, by decide⟩ =
      checkInPatch wReg ∧
    updateRegistration wState "nope" checkInPatch = wState := by
  refine ⟨(updateById_frame wState "nope" checkInPatch).1, ?_, ?_⟩
  · rw [(updateById_frame wState wReg.id checkInPatch).2.1 0 (by decide)
      (by decide)]
    decide
  · exact (updateById_frame wState "nope" checkInPatch).2.2 (by decide)

/-- C10: e-ticket generation is deterministic and depends only on
`{id, name, ticketType, guestName}`: two records agreeing on those four
fields get the identical `ticketQR` from issuance, regardless of any other
field. -/
theorem qr_depends_only_on_identity (r1 r2 : Registration)
    (hid : r1.id = r2.id) (hname : r1.name = r2.name)
    (htt : r1.ticketType = r2.ticketType) (hg : r1.guestName = r2.guestName) :
    generateQRCode r1 = generateQRCode r2 ∧
    ∀ x : Registration, (sendPatch r1 x).ticketQR = (sendPatch r2 x).ticketQR := by
  have hqr : generateQRCode r1 = generateQRCode r2 := by
    unfold generateQRCode qrData
    rw [hid, hname, htt, hg]
  exact ⟨hqr, fun x => by simp [sendPatch, hqr]⟩

/-- Variant of `wReg` with entirely different payment state and flags. -/
def wRegAlt : Registration :=
  { wReg with totalPaid := 0, balance := 2000, status := Status.pending, emailSent := true }

theorem qr_depends_only_on_identity_witness :
    generateQRCode wReg = generateQRCode wRegAlt ∧
    ∀ x : Registration,
      (sendPatch wReg x).ticketQR = (sendPatch wRegAlt x).ticketQR :=
  qr_depends_only_on_identity wReg wRegAlt rfl rfl rfl rfl

/-- C6: check-in contract — an unknown ticket id fails with the not-found
error, an outstanding balance fails with the payment-incomplete error
carrying that balance, an already-checked-in record yields the distinct
"already checked in" result (a constructor different from both errors), and
in every one of these cases the stored list is unchanged. -/
theorem checkIn_error_cases (regs : List Registration) (manualId : String) :
    ((∀ r ∈ regs, ¬ r.id = jsTrim manualId) →
      checkInOp regs manualId = (CheckInOutcome.notFound, regs)) ∧
    (∀ reg, regs.find? (fun r => r.id = jsTrim manualId) = some reg →
      reg.balance > 0 →
      checkInOp regs manualId = (CheckInOutcome.paymentIncomplete reg.balance, regs)) ∧
    (∀ reg, regs.find? (fun r => r.id = jsTrim manualId) = some reg →
      ¬ reg.balance > 0 → reg.checkedIn = true →
      checkInOp regs manualId = (CheckInOutcome.alreadyCheckedIn, regs)) ∧
    (∀ b : Int, CheckInOutcome.alreadyCheckedIn ≠ CheckInOutcome.notFound ∧
      CheckInOutcome.alreadyCheckedIn ≠ CheckInOutcome.paymentIncomplete b) := by
  refine ⟨?_, ?_, ?_, ?_⟩
  · intro habs
    have hnone : regs.find? (fun r => r.id = jsTrim manualId) = none := by
      rw [List.find?_eq_none]
      intro r hr
      simpa using habs r hr
    simp [checkInOp, handleManualSearch, hnone]
  · intro reg hfind hb
    simp [checkInOp, handleManualSearch, hfind, hb]
  · intro reg hfind hb hc
    simp [checkInOp, handleManualSearch, hfind, hb, hc]
  · intro b
    exact ⟨by simp, by simp⟩

theorem checkIn_error_cases_witness :
    checkInOp [wHalfPaid, wChecked] "nope" =
      (CheckInOutcome.notFound, [wHalfPaid, wChecked]) ∧
    checkInOp [wHalfPaid, wChecked] "43" =
      (CheckInOutcome.paymentIncomplete 500, [wHalfPaid, wChecked]) ∧
    checkInOp [wHalfPaid, wChecked] " 44 " =
      (CheckInOutcome.alreadyCheckedIn, [wHalfPaid, wChecked]) := by
  refine ⟨(checkIn_error_cases [wHalfPaid, wChecked] "nope").1 (by decide),
    ?_, ?_⟩
  · have h := (checkIn_error_cases [wHalfPaid, wChecked] "43").2.1 wHalfPaid
      (by decide) (by decide)
    exact h
  · exact (checkIn_error_cases [wHalfPaid, wChecked] " 44 ").2.2.1 wChecked
      (by decide) (by decide) (by decide)

/-- Helper predicate for C8: position `i` of the list holds a record whose
`checkedIn` flag is set. -/
def CheckedInKept (regs : List Registration) (i : Nat) : Prop :=
  ∃ h : i < regs.length, (regs.get ⟨i, h⟩).checkedIn = true

theorem checkedInKept_self {regs : List Registration} {i : Nat}
    (h : i < regs.length) (hc : (regs.get ⟨i, h⟩).checkedIn = true) :
    CheckedInKept regs i := ⟨h, hc⟩

theorem checkedIn_mono_update {regs : List Registration} {id : String}
    {f : Registration → Registration}
    (hf : ∀ r, r.checkedIn = true → (f r).checkedIn = true)
    {i : Nat} (h : CheckedInKept regs i) :
    CheckedInKept (updateRegistration regs id f) i := by
  obtain ⟨h, hc⟩ := h
  have hlen : i < (updateRegistration regs id f).length := by
    rw [updateRegistration_length]
    exact h
  refine ⟨hlen, ?_⟩
  rw [updateRegistration_get regs id f i h hlen]
  by_cases hid : (regs.get ⟨i, h⟩).id = id
  · rw [if_pos hid]
    exact hf _ hc
  · rw [if_neg hid]
    exact hc

theorem checkedIn_mono_sendETicket {regs : List Registration}
    {reg : Registration} {i : Nat} (h : CheckedInKept regs i) :
    CheckedInKept (sendETicket regs reg) i :=
  @checkedIn_mono_update regs reg.id (sendPatch reg) (fun _ hr => hr) i h

theorem sendPatch_checkedIn (reg r : Registration) :
    (sendPatch reg r).checkedIn = r.checkedIn := rfl

theorem approvePatch_checkedIn (reg r : Registration) :
    (approvePatch reg r).checkedIn = r.checkedIn := rfl

theorem partialPatch_checkedIn (reg : Registration) (a : Int)
    (r : Registration) : (partialPatch reg a r).checkedIn = r.checkedIn := rfl

theorem checkInOp_already {regs : List Registration} {manualId : String}
    {reg : Registration}
    (hfind : regs.find? (fun r => r.id = jsTrim manualId) = some reg)
    (hb : ¬ reg.balance > 0) (hcheck : reg.checkedIn = true) :
    checkInOp regs manualId = (CheckInOutcome.alreadyCheckedIn, regs) := by
  simp [checkInOp, handleManualSearch, hfind, hb, hcheck]

/-- C8: once a record's `checkedIn` flag is true, no operation (creation,
approve, addPartialPayment, issueETicket, or a further checkIn) ever clears
it — every step keeps the record at its position with `checkedIn` still
true — and checking in the same valid ticket a second time yields the
"already checked in" branch rather than a second check-in event. -/
theorem checkedIn_never_reverted :
    (∀ (regs : List Registration) (op : Op) (i : Nat) (h : i < regs.length),
      (regs.get ⟨i, h⟩).checkedIn = true → CheckedInKept (step regs op) i) ∧
    (∀ (regs : List Registration) (manualId : String),
      (checkInOp regs manualId).1 = CheckInOutcome.checkedInNow →
      (checkInOp (checkInOp regs manualId).2 manualId).1 =
        CheckInOutcome.alreadyCheckedIn) := by
  constructor
  · intro regs op i h hc
    have hself : CheckedInKept regs i := ⟨h, hc⟩
    cases op with
    | register form pm staffPin transactionRef receiptImage id createdAt =>
      show CheckedInKept (registerOp regs form pm staffPin transactionRef receiptImage id createdAt) i
      unfold registerOp
      cases handleSubmit form with
      | error e => exact hself
      | ok u =>
        cases handlePayment form pm staffPin transactionRef receiptImage id createdAt with
        | error e => exact hself
        | ok reg =>
          have hlen : i < (regs ++ [reg]).length := by
            rw [List.length_append]
            omega
          refine ⟨hlen, ?_⟩
          have hget : (regs ++ [reg]).get ⟨i, hlen⟩ = regs.get ⟨i, h⟩ := by
            simp [List.getElem_append_left h]
          rw [hget]
          exact hc
    | approve id =>
      show CheckedInKept (approveOp regs id) i
      unfold approveOp
      cases regs.find? (fun r => r.id = id) with
      | none => exact hself
      | some reg =>
        show CheckedInKept (if reg.status = Status.pending ∧
            reg.paymentMethod = PaymentMethod.transfer then
          sendETicket (handleApprove regs reg) reg else regs) i
        by_cases hguard : reg.status = Status.pending ∧
            reg.paymentMethod = PaymentMethod.transfer
        · rw [if_pos hguard]
          exact checkedIn_mono_sendETicket
            (@checkedIn_mono_update regs reg.id (approvePatch reg)
              (fun _ hr => hr) i hself)
        · rw [if_neg hguard]
          exact hself
    | addPartialPayment id partialAmount =>
      show CheckedInKept (addPartialPaymentOp regs id partialAmount) i
      unfold addPartialPaymentOp
      cases regs.find? (fun r => r.id = id) with
      | none => exact hself
      | some reg =>
        show CheckedInKept (if reg.balance > 0 then
          handleAddPartialPayment regs reg partialAmount else regs) i
        by_cases hb : reg.balance > 0
        · rw [if_pos hb]
          cases partialAmount with
          | none => exact hself
          | some a =>
            simp only [handleAddPartialPayment]
            by_cases ha : a ≤ 0
            · rw [if_pos ha]
              exact hself
            · rw [if_neg ha]
              exact @checkedIn_mono_update regs reg.id (partialPatch reg a)
                (fun _ hr => hr) i hself
        · rw [if_neg hb]
          exact hself
    | issueETicket id =>
      show CheckedInKept (issueETicketOp regs id) i
      unfold issueETicketOp
      cases regs.find? (fun r => r.id = id) with
      | none => exact hself
      | some reg =>
        show CheckedInKept (if reg.balance = 0 ∧ reg.emailSent = false then
          sendETicket regs reg else regs) i
        by_cases hguard : reg.balance = 0 ∧ reg.emailSent = false
        · rw [if_pos hguard]
          exact checkedIn_mono_sendETicket hself
        · rw [if_neg hguard]
          exact hself
    | checkIn manualId =>
      show CheckedInKept (checkInOp regs manualId).2 i
      cases hfind : regs.find? (fun r => r.id = jsTrim manualId) with
      | none =>
        have : (checkInOp regs manualId).2 = regs := by
          simp [checkInOp, handleManualSearch, hfind]
        rw [this]
        exact hself
      | some reg =>
        by_cases hb : reg.balance > 0
        · have : (checkInOp regs manualId).2 = regs := by
            simp [checkInOp, handleManualSearch, hfind, hb]
          rw [this]
          exact hself
        · by_cases hcheck : reg.checkedIn
          · have : (checkInOp regs manualId).2 = regs := by
              simp [checkInOp, handleManualSearch, hfind, hb, hcheck]
            rw [this]
            exact hself
          · have : (checkInOp regs manualId).2 =
                updateRegistration regs reg.id checkInPatch := by
              simp [checkInOp, handleManualSearch, hfind, hb, hcheck]
            rw [this]
            exact @checkedIn_mono_update regs reg.id checkInPatch
              (fun _ _ => rfl) i hself
  · intro regs manualId hnow
    cases hfind : regs.find? (fun r => r.id = jsTrim manualId) with
    | none => simp [checkInOp, handleManualSearch, hfind] at hnow
    | some reg =>
      by_cases hb : reg.balance > 0
      · simp [checkInOp, handleManualSearch, hfind, hb] at hnow
      · by_cases hcheck : reg.checkedIn
        · simp [checkInOp, handleManualSearch, hfind, hb, hcheck] at hnow
        · have hstate : (checkInOp regs manualId).2 =
              updateRegistration regs reg.id checkInPatch := by
            simp [checkInOp, handleManualSearch, hfind, hb, hcheck]
          have hfind2 : (updateRegistration regs reg.id checkInPatch).find?
              (fun r => r.id = jsTrim manualId) = some (checkInPatch reg) := by
            rw [find?_updateRegistration regs reg.id (jsTrim manualId)
              checkInPatch checkInPatch_id, hfind]
            simp
          rw [hstate]
          have hb2 : ¬ (checkInPatch reg).balance > 0 := hb
          rw [checkInOp_already hfind2 hb2 rfl]

theorem checkedIn_never_reverted_witness :
    CheckedInKept (step [wHalfPaid, wChecked] (Op.approve "43")) 1 ∧
    (checkInOp (checkInOp [wReg] "1700000000000").2 "1700000000000").1 =
      CheckInOutcome.alreadyCheckedIn :=
  ⟨checkedIn_never_reverted.1 [wHalfPaid, wChecked] (Op.approve "43") 1
    (by decide) (by decide),
   checkedIn_never_reverted.2 [wReg] "1700000000000" (by decide)⟩

/-- C5: approve contract — on the pending transfer-paid record found for
the id, approve stores a record with `totalPaid = totalDue`, `balance = 0`,
`status = paid`; on a record whose status is not pending it is a no-op
leaving the list unchanged; and repeating approve after it has run changes
nothing (no double-credit: approve is idempotent). -/
theorem approve_contract (regs : List Registration) (id : String) :
    (∀ reg, regs.find? (fun r => r.id = id) = some reg →
      reg.status = Status.pending → reg.paymentMethod = PaymentMethod.transfer →
      ∃ r' ∈ approveOp regs id, r'.id = reg.id ∧ r'.totalPaid = reg.totalDue ∧
        r'.balance = 0 ∧ r'.status = Status.paid) ∧
    (∀ reg, regs.find? (fun r => r.id = id) = some reg →
      reg.status ≠ Status.pending → approveOp regs id = regs) ∧
    approveOp (approveOp regs id) id = approveOp regs id := by
  refine ⟨?_, ?_, ?_⟩
  · intro reg hfind hpend htrans
    have hmem := List.mem_of_find?_eq_some hfind
    have heq : approveOp regs id = sendETicket (handleApprove regs reg) reg := by
      unfold approveOp
      rw [hfind]
      show (if reg.status = Status.pending ∧
          reg.paymentMethod = PaymentMethod.transfer then
        sendETicket (handleApprove regs reg) reg else regs) = _
      rw [if_pos ⟨hpend, htrans⟩]
    refine ⟨sendPatch reg (approvePatch reg reg), ?_, rfl, rfl, rfl, rfl⟩
    rw [heq]
    unfold sendETicket
    refine mem_updateRegistration_of_mem ?_ rfl
    unfold handleApprove
    exact mem_updateRegistration_of_mem hmem rfl
  · intro reg hfind hne
    unfold approveOp
    rw [hfind]
    show (if reg.status = Status.pending ∧
        reg.paymentMethod = PaymentMethod.transfer then
      sendETicket (handleApprove regs reg) reg else regs) = regs
    rw [if_neg (fun hcon => hne hcon.1)]
  · cases hfind : regs.find? (fun r => r.id = id) with
    | none =>
      have h0 : approveOp regs id = regs := by
        unfold approveOp
        rw [hfind]
      rw [h0]
      exact h0
    | some reg =>
      by_cases hguard : reg.status = Status.pending ∧
          reg.paymentMethod = PaymentMethod.transfer
      · have h0 : approveOp regs id = sendETicket (handleApprove regs reg) reg := by
          unfold approveOp
          rw [hfind]
          show (if reg.status = Status.pending ∧
              reg.paymentMethod = PaymentMethod.transfer then
            sendETicket (handleApprove regs reg) reg else regs) = _
          rw [if_pos hguard]
        have hf2 : (sendETicket (handleApprove regs reg) reg).find?
            (fun r => r.id = id) =
            some (sendPatch reg (approvePatch reg reg)) := by
          unfold sendETicket handleApprove
          rw [find?_updateRegistration _ reg.id id (sendPatch reg)
              (sendPatch_id reg),
            find?_updateRegistration _ reg.id id (approvePatch reg)
              (approvePatch_id reg), hfind]
          simp [approvePatch_id]
        rw [h0]
        unfold approveOp
        rw [hf2]
        show (if (sendPatch reg (approvePatch reg reg)).status = Status.pending ∧
            (sendPatch reg (approvePatch reg reg)).paymentMethod =
              PaymentMethod.transfer then
          sendETicket (handleApprove (sendETicket (handleApprove regs reg) reg)
            (sendPatch reg (approvePatch reg reg)))
            (sendPatch reg (approvePatch reg reg))
          else sendETicket (handleApprove regs reg) reg) =
          sendETicket (handleApprove regs reg) reg
        rw [if_neg ?_]
        intro hcon
        have h1 := hcon.1
        have hst : (sendPatch reg (approvePatch reg reg)).status = Status.paid := rfl
        rw [hst] at h1
        cases h1
      · have h0 : approveOp regs id = regs := by
          unfold approveOp
          rw [hfind]
          show (if reg.status = Status.pending ∧
              reg.paymentMethod = PaymentMethod.transfer then
            sendETicket (handleApprove regs reg) reg else regs) = regs
          rw [if_neg hguard]
        rw [h0]
        exact h0

theorem approve_contract_witness :
    (∃ r' ∈ approveOp [wPending] "42", r'.id = wPending.id ∧
      r'.totalPaid = wPending.totalDue ∧ r'.balance = 0 ∧
      r'.status = Status.paid) ∧
    approveOp [wReg] "1700000000000" = [wReg] ∧
    approveOp (approveOp [wPending] "42") "42" = approveOp [wPending] "42" :=
  ⟨(approve_contract [wPending] "42").1 wPending (by decide) (by decide)
    (by decide),
   (approve_contract [wReg] "1700000000000").2.1 wReg (by decide) (by decide),
   (approve_contract [wPending] "42").2.2⟩

/-- C7: issueETicket is idempotent — running the operation a second time
leaves the stored list (in particular every record's `ticketQR` and
`emailSent`) exactly as after the first run, and on a record whose
`emailSent` flag is already true the operation does not re-trigger issuance
(the list is unchanged). -/
theorem issueETicket_idempotent (regs : List Registration) (id : String) :
    issueETicketOp (issueETicketOp regs id) id = issueETicketOp regs id ∧
    (∀ reg, regs.find? (fun r => r.id = id) = some reg →
      reg.emailSent = true → issueETicketOp regs id = regs) := by
  constructor
  · cases hfind : regs.find? (fun r => r.id = id) with
    | none =>
      have h0 : issueETicketOp regs id = regs := by
        unfold issueETicketOp
        rw [hfind]
      rw [h0]
      exact h0
    | some reg =>
      by_cases hguard : reg.balance = 0 ∧ reg.emailSent = false
      · have h0 : issueETicketOp regs id = sendETicket regs reg := by
          unfold issueETicketOp
          rw [hfind]
          show (if reg.balance = 0 ∧ reg.emailSent = false then
            sendETicket regs reg else regs) = _
          rw [if_pos hguard]
        have hf2 : (sendETicket regs reg).find? (fun r => r.id = id) =
            some (sendPatch reg reg) := by
          unfold sendETicket
          rw [find?_updateRegistration _ reg.id id (sendPatch reg)
            (sendPatch_id reg), hfind]
          simp
        rw [h0]
        unfold issueETicketOp
        rw [hf2]
        show (if (sendPatch reg reg).balance = 0 ∧
            (sendPatch reg reg).emailSent = false then
          sendETicket (sendETicket regs reg) (sendPatch reg reg)
          else sendETicket regs reg) = sendETicket regs reg
        rw [if_neg ?_]
        intro hcon
        have h1 := hcon.2
        have hes : (sendPatch reg reg).emailSent = true := rfl
        rw [hes] at h1
        cases h1
      · have h0 : issueETicketOp regs id = regs := by
          unfold issueETicketOp
          rw [hfind]
          show (if reg.balance = 0 ∧ reg.emailSent = false then
            sendETicket regs reg else regs) = regs
          rw [if_neg hguard]
        rw [h0]
        exact h0
  · intro reg hfind hsent
    unfold issueETicketOp
    rw [hfind]
    show (if reg.balance = 0 ∧ reg.emailSent = false then
      sendETicket regs reg else regs) = regs
    rw [if_neg ?_]
    intro hcon
    have h1 := hcon.2
    rw [hsent] at h1
    cases h1

theorem issueETicket_idempotent_witness :
    issueETicketOp (issueETicketOp [wReg] "1700000000000") "1700000000000" =
      issueETicketOp [wReg] "1700000000000" ∧
    issueETicketOp [wRegAlt] "1700000000000" = [wRegAlt] :=
  ⟨(issueETicket_idempotent [wReg] "1700000000000").1,
   (issueETicket_idempotent [wRegAlt] "1700000000000").2 wRegAlt (by decide)
     (by decide)⟩

/-- C3: registration creation contract — with the required fields present
(`handleSubmit` succeeds): cash with the staff PIN `"1234"` creates a record
with `totalPaid = totalDue` (`ticketPrice`: 2000 solo / 3000 guest),
`balance = 0`, `status = paid`; transfer with a non-blank `transactionRef`
and a receipt image present creates a record with `totalPaid = 0`,
`balance = totalDue`, `status = pending`; a mismatched cash PIN fails with
the authorization error and appends no record; a missing `transactionRef`
or receipt fails with a validation error and appends no record. -/
theorem registration_creation_contract (regs : List Registration)
    (form : FormData) (staffPin transactionRef : String)
    (receiptImage : Option String) (id createdAt : String)
    (hform : handleSubmit form = Except.ok ()) :
    (ticketPrice TicketType.solo = 2000 ∧ ticketPrice TicketType.guest = 3000) ∧
    (staffPin = "1234" →
      ∃ reg, handlePayment form PaymentMethod.cash staffPin transactionRef
          receiptImage id createdAt = Except.ok reg ∧
        reg.totalDue = ticketPrice form.ticketType ∧
        reg.totalPaid = reg.totalDue ∧ reg.balance = 0 ∧
        reg.status = Status.paid ∧
        registerOp regs form PaymentMethod.cash staffPin transactionRef
          receiptImage id createdAt = regs ++ [reg]) ∧
    (staffPin ≠ "1234" →
      handlePayment form PaymentMethod.cash staffPin transactionRef
          receiptImage id createdAt =
        Except.error (RegError.authorization "Invalid Staff PIN") ∧
      registerOp regs form PaymentMethod.cash staffPin transactionRef
        receiptImage id createdAt = regs) ∧
    (∀ img, jsTrim transactionRef ≠ "" →
      ∃ reg, handlePayment form PaymentMethod.transfer staffPin transactionRef
          (some img) id createdAt = Except.ok reg ∧
        reg.totalDue = ticketPrice form.ticketType ∧ reg.totalPaid = 0 ∧
        reg.balance = reg.totalDue ∧ reg.status = Status.pending ∧
        registerOp regs form PaymentMethod.transfer staffPin transactionRef
          (some img) id createdAt = regs ++ [reg]) ∧
    ((jsTrim transactionRef = "" ∨ receiptImage = none) →
      (∃ msg, handlePayment form PaymentMethod.transfer staffPin transactionRef
          receiptImage id createdAt = Except.error (RegError.validation msg)) ∧
      registerOp regs form PaymentMethod.transfer staffPin transactionRef
        receiptImage id createdAt = regs) := by
  refine ⟨⟨rfl, rfl⟩, ?_, ?_, ?_, ?_⟩
  · intro hpin
    cases hp : handlePayment form PaymentMethod.cash staffPin transactionRef
        receiptImage id createdAt with
    | error e =>
      exfalso
      simp only [handlePayment] at hp
      rw [if_neg (fun hne => hne hpin)] at hp
      cases hp
    | ok reg =>
      simp only [handlePayment] at hp
      rw [if_neg (fun hne => hne hpin)] at hp
      simp only [Except.ok.injEq] at hp
      subst hp
      refine ⟨_, rfl, rfl, rfl, rfl, rfl, ?_⟩
      unfold registerOp
      rw [hform]
      simp only [handlePayment]
      rw [if_neg (fun hne => hne hpin)]
  · intro hpin
    constructor
    · simp only [handlePayment]
      rw [if_pos hpin]
    · unfold registerOp
      rw [hform]
      simp only [handlePayment]
      rw [if_pos hpin]
  · intro img htr
    cases hp : handlePayment form PaymentMethod.transfer staffPin
        transactionRef (some img) id createdAt with
    | error e =>
      exfalso
      simp only [handlePayment] at hp
      rw [if_neg htr] at hp
      cases hp
    | ok reg =>
      simp only [handlePayment] at hp
      rw [if_neg htr] at hp
      simp only [Except.ok.injEq] at hp
      subst hp
      refine ⟨_, rfl, rfl, rfl, rfl, rfl, ?_⟩
      unfold registerOp
      rw [hform]
      simp only [handlePayment]
      rw [if_neg htr]
  · intro hcase
    by_cases htr : jsTrim transactionRef = ""
    · refine ⟨⟨"Please enter transaction reference", ?_⟩, ?_⟩
      · simp only [handlePayment]
        rw [if_pos htr]
      · unfold registerOp
        rw [hform]
        simp only [handlePayment]
        rw [if_pos htr]
    · have hri : receiptImage = none := by
        cases hcase with
        | inl h => exact absurd h htr
        | inr h => exact h
      subst hri
      refine ⟨⟨"Please upload payment receipt", ?_⟩, ?_⟩
      · simp only [handlePayment]
        rw [if_neg htr]
      · unfold registerOp
        rw [hform]
        simp only [handlePayment]
        rw [if_neg htr]

theorem registration_creation_contract_witness :
    (∃ reg, handlePayment wForm PaymentMethod.cash "1234" "" none
        "1700000000000" "2026-01-01T00:00:00.000Z" = Except.ok reg ∧
      reg.totalDue = ticketPrice wForm.ticketType ∧
      reg.totalPaid = reg.totalDue ∧ reg.balance = 0 ∧
      reg.status = Status.paid ∧
      registerOp [] wForm PaymentMethod.cash "1234" "" none
        "1700000000000" "2026-01-01T00:00:00.000Z" = [] ++ [reg]) ∧
    (handlePayment wForm PaymentMethod.cash "0000" "" none "1" "t" =
      Except.error (RegError.authorization "Invalid Staff PIN") ∧
     registerOp [] wForm PaymentMethod.cash "0000" "" none "1" "t" = []) ∧
    (∃ msg, handlePayment wForm PaymentMethod.transfer "" "" none "1" "t" =
      Except.error (RegError.validation msg)) :=
  ⟨(registration_creation_contract [] wForm "1234" "" none "1700000000000"
      "2026-01-01T00:00:00.000Z" (by exact rfl)).2.1 rfl,
   (registration_creation_contract [] wForm "0000" "" none "1" "t"
      (by exact rfl)).2.2.1 (by decide),
   ((registration_creation_contract [] wForm "" "" none "1" "t"
      (by exact rfl)).2.2.2.2 (Or.inl (by decide))).1⟩

/-- C4: addPartialPayment contract — a non-numeric (`none`) or non-positive
amount leaves the list unchanged; a positive amount stores, at the record's
position, the patched record with `totalPaid` increased by the amount and
`balance = totalDue - totalPaid` without clamping (so it goes negative on
overpayment), leaves every other-id record unchanged, and the status flips
to paid iff the resulting balance is ≤ 0, staying pending otherwise. -/
theorem addPartialPayment_contract (regs : List Registration)
    (reg : Registration) :
    handleAddPartialPayment regs reg none = regs ∧
    (∀ a : Int, a ≤ 0 → handleAddPartialPayment regs reg (some a) = regs) ∧
    (∀ a : Int, 0 < a →
      (∀ r ∈ regs, r.id ≠ reg.id →
        r ∈ handleAddPartialPayment regs reg (some a)) ∧
      (reg ∈ regs →
        partialPatch reg a reg ∈ handleAddPartialPayment regs reg (some a)) ∧
      (partialPatch reg a reg).totalPaid = reg.totalPaid + a ∧
      (partialPatch reg a reg).balance = reg.totalDue - (reg.totalPaid + a) ∧
      (GoodReg reg →
        ((partialPatch reg a reg).status = Status.paid ↔
          (partialPatch reg a reg).balance ≤ 0) ∧
        (0 < (partialPatch reg a reg).balance →
          (partialPatch reg a reg).status = Status.pending) ∧
        (reg.balance < a → (partialPatch reg a reg).balance < 0))) := by
  refine ⟨rfl, ?_, ?_⟩
  · intro a ha
    simp only [handleAddPartialPayment]
    rw [if_pos ha]
  · intro a ha
    have hna : ¬ a ≤ 0 := not_le.mpr ha
    refine ⟨?_, ?_, rfl, rfl, ?_⟩
    · intro r hr hne
      simp only [handleAddPartialPayment]
      rw [if_neg hna]
      exact mem_updateRegistration.mpr ⟨r, hr, by rw [if_neg hne]⟩
    · intro hmem
      simp only [handleAddPartialPayment]
      rw [if_neg hna]
      exact mem_updateRegistration_of_mem hmem rfl
    · intro hgood
      obtain ⟨h1, h2⟩ := hgood
      refine ⟨?_, ?_, ?_⟩
      · simp only [partialPatch]
        by_cases hnb : reg.totalDue - (reg.totalPaid + a) ≤ 0
        · simp [hnb]
        · rw [if_neg hnb]
          constructor
          · intro hst
            have hb := h2.mp hst
            omega
          · intro hnb2
            exact absurd hnb2 hnb
      · intro hpos
        simp only [partialPatch] at hpos ⊢
        rw [if_neg (by omega)]
        cases hst : reg.status with
        | paid =>
          exfalso
          have hb := h2.mp hst
          omega
        | pending => rfl
      · intro hlt
        simp only [partialPatch]
        omega

theorem addPartialPayment_contract_witness :
    handleAddPartialPayment [wPending] wPending none = [wPending] ∧
    handleAddPartialPayment [wPending] wPending (some (-5)) = [wPending] ∧
    partialPatch wPending 1000 wPending ∈
      handleAddPartialPayment [wPending] wPending (some 1000) ∧
    (partialPatch wPending 1000 wPending).totalPaid = 1000 ∧
    (partialPatch wPending 1000 wPending).balance = 2000 ∧
    (partialPatch wPending 1000 wPending).status = Status.pending := by
  refine ⟨(addPartialPayment_contract [wPending] wPending).1,
    (addPartialPayment_contract [wPending] wPending).2.1 (-5) (by decide),
    ((addPartialPayment_contract [wPending] wPending).2.2 1000
      (by decide)).2.1 (by decide), ?_, ?_, ?_⟩
  · rw [((addPartialPayment_contract [wPending] wPending).2.2 1000
      (by decide)).2.2.1]
    decide
  · rw [((addPartialPayment_contract [wPending] wPending).2.2 1000
      (by decide)).2.2.2.1]
    decide
  · exact (((addPartialPayment_contract [wPending] wPending).2.2 1000
      (by decide)).2.2.2.2 ⟨by decide, by decide⟩).2.1 (by decide)

end EventReg
